import Mathlib

/-!
# Verification of the CIFAR training loop (src/main.py)

A shallow embedding of the training/evaluation/checkpoint core of
`src/main.py` from `mostafaelhoushi/pytorch-cifar`, together with proofs
about the embedded code.  Floating-point values are modelled by `Rat`,
opaque serializable blobs (model parameters, optimizer state) by `Nat`
tags, and the save directory's filesystem by a map from file names to
file contents.
-/

namespace PCifar

/-! ## Per-batch observations and the metric accumulator

Each loop iteration of `train` (src/main.py lines 99-121) and `test`
(lines 133-151) observes a batch loss (`loss.item()`), the number of
correct predictions (`predicted.eq(targets).sum().item()`), the batch
size (`targets.size(0)`) and the wall-clock time of the batch. -/

/-- One batch's observed quantities, as read off inside the loop body of
`train`/`test` in src/main.py. -/
structure Batch where
  loss : Rat
  correct : Nat
  total : Nat
  btime : Rat
deriving Repr, DecidableEq

/-- The running totals held in the local variables of `train`/`test`
(src/main.py lines 93-96 and 127-130): `train_loss`/`test_loss`,
`correct`, `total`, `batch_time_total`, plus the implicit batch counter
`batch_idx + 1`. -/
structure MetricState where
  loss_sum : Rat
  correct : Nat
  total : Nat
  time_sum : Rat
  count : Nat
deriving Repr, DecidableEq

/-- Initial accumulator state (src/main.py lines 93-96 / 127-130). -/
def initMetricState : MetricState :=
  { loss_sum := 0, correct := 0, total := 0, time_sum := 0, count := 0 }

/-- One loop-body update (src/main.py lines 111-115 / 142-146):
`train_loss += loss.item(); total += targets.size(0);
correct += predicted.eq(targets).sum().item();
batch_time_total += batch_time`; the batch counter advances. -/
def updateMetrics (s : MetricState) (b : Batch) : MetricState :=
  { loss_sum := s.loss_sum + b.loss
    correct := s.correct + b.correct
    total := s.total + b.total
    time_sum := s.time_sum + b.btime
    count := s.count + 1 }

/-- Folding the loop body over all batches of one epoch pass. -/
def foldBatches (bs : List Batch) : MetricState :=
  bs.foldl updateMetrics initMetricState

/-- The per-epoch result tuple returned by `train` (line 122) and `test`
(line 176): `(loss/(batch_idx+1), 100.*correct/total,
batch_time_total/(batch_idx+1))`. -/
structure EpochMetrics where
  avg_loss : Rat
  acc : Rat
  avg_time : Rat
deriving Repr, DecidableEq

/-- The value returned at the end of a `train`/`test` pass
(src/main.py lines 122 and 176).  With zero batches the Python code
raises (`batch_idx` unbound / division by a zero `total`), modelled by
`none`. -/
def finalizeMetrics (bs : List Batch) : Option EpochMetrics :=
  let s := foldBatches bs
  if s.count = 0 ∨ s.total = 0 then none
  else some { avg_loss := s.loss_sum / s.count
              acc := 100 * (s.correct : Rat) / s.total
              avg_time := s.time_sum / s.count }

/-- `train(epoch)` metric result (src/main.py lines 90-122): the
training pass accumulates exactly the same metric totals as the test
pass and returns the same shape of tuple. -/
def trainMetrics (bs : List Batch) : Option EpochMetrics :=
  finalizeMetrics bs

/-- List-level loss sum, for stating epoch-metric results
independently of the fold. -/
def lossSum (bs : List Batch) : Rat :=
  (bs.map Batch.loss).sum

/-- List-level correct-prediction count. -/
def correctSum (bs : List Batch) : Nat :=
  (bs.map Batch.correct).sum

/-- List-level sample count. -/
def totalSum (bs : List Batch) : Nat :=
  (bs.map Batch.total).sum

/-- List-level elapsed-time sum. -/
def timeSum (bs : List Batch) : Rat :=
  (bs.map Batch.btime).sum

theorem foldBatches_eq_sums (bs : List Batch) :
    foldBatches bs =
      { loss_sum := lossSum bs, correct := correctSum bs,
        total := totalSum bs, time_sum := timeSum bs,
        count := bs.length } := by
  suffices h : ∀ s : MetricState, bs.foldl updateMetrics s =
      { loss_sum := s.loss_sum + lossSum bs,
        correct := s.correct + correctSum bs,
        total := s.total + totalSum bs,
        time_sum := s.time_sum + timeSum bs,
        count := s.count + bs.length } by
    have := h initMetricState
    simpa [foldBatches, initMetricState] using this
  induction bs with
  | nil => intro s; simp [lossSum, correctSum, totalSum, timeSum]
  | cons b t ih =>
    intro s
    simp only [List.foldl_cons, ih, updateMetrics, lossSum, correctSum,
      totalSum, timeSum, List.map_cons, List.sum_cons, List.length_cons,
      MetricState.mk.injEq]
    exact ⟨by ring, by omega, by omega, by ring, by omega⟩

/-! ## Checkpoint records and the save directory

The checkpoint dict written by `test` (src/main.py lines 167-174) has
exactly the keys `epoch`, `arch`, `state_dict`, `best_acc1`,
`optimizer`.  Parameter and optimizer blobs are opaque, modelled by
`Nat` tags.  The save directory is a map from file names to file
contents. -/

/-- The checkpoint dict of src/main.py lines 167-174. -/
structure Ckpt where
  epoch : Int
  arch : String
  state_dict : Nat
  best_acc1 : Rat
  optimizer : Nat
deriving Repr, DecidableEq

/-- A Python value stored under a checkpoint-dict key. -/
inductive PyVal where
  | int (i : Int)
  | str (s : String)
  | rat (q : Rat)
  | blob (b : Nat)
deriving Repr, DecidableEq

/-- Dict lookup `checkpoint[k]` on the record written by
`save_checkpoint`: exactly the five keys of the dict literal at
src/main.py lines 167-174 are present. -/
def Ckpt.getKey (c : Ckpt) (k : String) : Option PyVal :=
  if k = "epoch" then some (.int c.epoch)
  else if k = "arch" then some (.str c.arch)
  else if k = "state_dict" then some (.blob c.state_dict)
  else if k = "best_acc1" then some (.rat c.best_acc1)
  else if k = "optimizer" then some (.blob c.optimizer)
  else none

/-- A log-file line: the header written at run start (src/main.py line
193) or one per-epoch data row (line 203). -/
inductive LogEntry where
  | header
  | row (epoch : Nat) (trainLog testLog : EpochMetrics) (cum : Rat)
deriving Repr, DecidableEq

/-- Content of one file in the save directory. -/
inductive FileData where
  | ckpt (c : Ckpt)
  | modelObj (b : Nat)
  | weights (b : Nat)
  | log (rows : List LogEntry)
deriving Repr, DecidableEq

/-- The save directory: file name to content. -/
def FS : Type := String → Option FileData

/-- Writing (creating or fully overwriting) one file. -/
def fsWrite (fs : FS) (name : String) (d : FileData) : FS :=
  fun n => if n = name then some d else fs n

/-- `shutil.copyfile(src, dst)`: dst gets src's current content. -/
def fsCopy (fs : FS) (src dst : String) : FS :=
  fun n => if n = dst then fs src else fs n

/-- Observable side effects of the checkpoint code: file writes, file
copies, and printed warnings. -/
inductive Ev where
  | write (name : String)
  | copy (src dst : String)
  | warn (msg : String)
deriving Repr, DecidableEq

/-- Success/failure of each fallible file operation in the checkpoint
path: the two convenience exports (`torch.save` to model.pth /
weights.pth), the checkpoint write, and the two `shutil.copyfile`
calls. -/
structure WriteFlags where
  modelOk : Bool
  weightsOk : Bool
  ckptOk : Bool
  bestCopyOk : Bool
  snapCopyOk : Bool
deriving Repr, DecidableEq

/-- All file operations succeed. -/
def allOk : WriteFlags :=
  { modelOk := true, weightsOk := true, ckptOk := true,
    bestCopyOk := true, snapCopyOk := true }

/-- The rolling checkpoint file name (src/main.py line 178). -/
def ckptFile : String := "checkpoint.pth.tar"

/-- Permanent snapshot file name `checkpoint_<e>.pth.tar`
(src/main.py line 184). -/
def snapFile (e : Int) : String :=
  "checkpoint_" ++ toString e ++ ".pth.tar"

/-- The module-level names bound in src/main.py, each paired with an
opaque object id.  `from models import *` contributes the architecture
constructors (Modelled from the spec: the `models` package is not under
src/; per the spec it is the closed registry of architecture classes
named in the source's comment block, and exports nothing else).
The name `model` is not bound anywhere. -/
def mainGlobals : List (String × Nat) :=
  [("torch", 0), ("nn", 1), ("optim", 2), ("F", 3), ("cudnn", 4),
   ("torchvision", 5), ("transforms", 6), ("os", 7), ("argparse", 8),
   ("csv", 9), ("time", 10), ("shutil", 11),
   ("VGG", 12), ("ResNet18", 13), ("PreActResNet18", 14),
   ("GoogLeNet", 15), ("DenseNet121", 16), ("ResNeXt29_2x64d", 17),
   ("MobileNet", 18), ("MobileNetV2", 19), ("DPN92", 20),
   ("ShuffleNetG2", 21), ("SENet18", 22), ("ShuffleNetV2", 23),
   ("EfficientNetB0", 24), ("progress_bar", 25),
   ("parser", 26), ("args", 27), ("device", 28), ("best_acc", 29),
   ("start_epoch", 30), ("transform_train", 31), ("transform_test", 32),
   ("trainset", 33), ("trainloader", 34), ("testset", 35),
   ("testloader", 36), ("classes", 37), ("net", 38), ("checkpoint", 39),
   ("model_dir", 40), ("criterion", 41), ("optimizer", 42),
   ("train", 43), ("test", 44), ("save_checkpoint", 45),
   ("train_log_file", 46), ("train_log_csv", 47), ("start_log_time", 48),
   ("epoch", 49), ("train_epoch_log", 50), ("test_epoch_log", 51)]

/-- One `try: torch.save(<expr involving the name model>, fname)
except: print(warning)` block (src/main.py lines 158-165).  Evaluating
the name `model` raises `NameError` when it is unbound; that — or an
I/O failure of the write itself — is swallowed by the bare `except`,
which prints the warning and continues. -/
def tryExport (env : List (String × Nat)) (ok : Bool) (fname : String)
    (mk : Nat → FileData) (fs : FS) : FS × List Ev :=
  match env.lookup "model" with
  | some v =>
      if ok then (fsWrite fs fname (mk v), [Ev.write fname])
      else (fs, [Ev.warn ("WARNING: Unable to save " ++ fname)])
  | none => (fs, [Ev.warn ("WARNING: Unable to save " ++ fname)])

/-- `save_checkpoint(state, is_best, dir_path)` (src/main.py lines
178-184): write the checkpoint dict to checkpoint.pth.tar, copy it to
model_best.pth.tar when is_best, and copy it to
checkpoint_<epoch-1>.pth.tar when `(state['epoch']-1) % 10 == 0`.
No failure is caught here; a failed write/copy is fatal. -/
def save_checkpoint (fl : WriteFlags) (state : Ckpt) (is_best : Bool)
    (fs : FS) : Except String (FS × List Ev) :=
  if fl.ckptOk = false then .error "IOError: checkpoint.pth.tar" else
  let fs1 := fsWrite fs ckptFile (.ckpt state)
  if is_best && !fl.bestCopyOk then .error "IOError: model_best.pth.tar" else
  let fs2 := if is_best then fsCopy fs1 ckptFile "model_best.pth.tar" else fs1
  let ev2 : List Ev :=
    if is_best then [Ev.copy ckptFile "model_best.pth.tar"] else []
  if (state.epoch - 1) % 10 == 0 && !fl.snapCopyOk then
    .error "IOError: snapshot" else
  let fs3 := if (state.epoch - 1) % 10 == 0 then
    fsCopy fs2 ckptFile (snapFile (state.epoch - 1)) else fs2
  let ev3 : List Ev :=
    if (state.epoch - 1) % 10 == 0 then
      [Ev.copy ckptFile (snapFile (state.epoch - 1))] else []
  .ok (fs3, Ev.write ckptFile :: (ev2 ++ ev3))

/-- The checkpoint section of `test` (src/main.py lines 153-174):
compute is_best, raise best_acc to the max, attempt the two
convenience exports when is_best, then `save_checkpoint` with
`{epoch: epoch+1, arch, state_dict, best_acc1: best_acc, optimizer}`.
Returns (is_best, the dict written, the new best_acc, the new
directory state, the emitted events). -/
def record (env : List (String × Nat)) (fl : WriteFlags) (best_acc : Rat)
    (epoch : Int) (acc : Rat) (netSd optSt : Nat) (arch : String)
    (fs : FS) : Except String (Bool × Ckpt × Rat × FS × List Ev) :=
  let is_best := decide (best_acc < acc)
  let best' := max acc best_acc
  let exported :=
    if is_best then
      let rA := tryExport env fl.modelOk "model.pth" FileData.modelObj fs
      let rB := tryExport env fl.weightsOk "weights.pth" FileData.weights rA.1
      (rB.1, rA.2 ++ rB.2)
    else (fs, [])
  let saved : Ckpt :=
    { epoch := epoch + 1, arch := arch, state_dict := netSd,
      best_acc1 := best', optimizer := optSt }
  match save_checkpoint fl saved is_best exported.1 with
  | .error e => .error e
  | .ok (fs', evS) => .ok (is_best, saved, best', fs', exported.2 ++ evS)

/-- `test(epoch)` (src/main.py lines 124-176): the evaluation pass over
the test batches, then the checkpoint section, then return the metric
tuple.  An empty loader (or zero samples) makes the accuracy division
raise, modelled as an error. -/
def test (env : List (String × Nat)) (fl : WriteFlags) (best_acc : Rat)
    (epoch : Int) (bs : List Batch) (netSd optSt : Nat) (arch : String)
    (fs : FS) :
    Except String (EpochMetrics × Bool × Rat × FS × List Ev) :=
  match finalizeMetrics bs with
  | none => .error "ZeroDivisionError"
  | some m =>
    match record env fl best_acc epoch m.acc netSd optSt arch fs with
    | .error e => .error e
    | .ok (ib, _, best', fs', evs) => .ok (m, ib, best', fs', evs)

/-- The resume block (src/main.py lines 75-82): load
`os.path.join(args.save, 'checkpoint.pth')` and read the keys `net`,
`acc`, `epoch` from it.  A missing file or missing key is fatal.
Returns (restored parameter blob, best_acc, start_epoch). -/
def resume (fs : FS) : Except String (Nat × Rat × Int) :=
  match fs "checkpoint.pth" with
  | none => .error "FileNotFoundError: checkpoint.pth"
  | some (.ckpt c) =>
    match c.getKey "net" with
    | none => .error "KeyError: net"
    | some (.blob sd) =>
      match c.getKey "acc", c.getKey "epoch" with
      | some (.rat b), some (.int e) => .ok (sd, b, e)
      | _, _ => .error "KeyError"
    | some _ => .error "TypeError"
  | some _ => .error "UnpicklingError"

/-! ## Sequences of record calls and the main loop -/

/-- Checkpoint-manager state threaded between test passes: the global
`best_acc` (src/main.py line 29, mutated at line 156) and the save
directory. -/
structure RunSt where
  best_acc : Rat
  fs : FS

/-- The inputs one test pass feeds into its checkpoint section: the
epoch index, the accuracy of this pass, and the current parameter /
optimizer blobs. -/
structure CallIn where
  epoch : Int
  acc : Rat
  netSd : Nat
  optSt : Nat

/-- Per-call observations of one checkpoint section: the is_best flag,
the dict written to checkpoint.pth.tar, the best_acc after the call,
and the emitted events. -/
structure StepInfo where
  is_best : Bool
  saved : Ckpt
  best_after : Rat
  events : List Ev

/-- Running a sequence of consecutive checkpoint sections (one per test
pass), threading best_acc and the directory. -/
def runRecords (env : List (String × Nat)) (fl : WriteFlags)
    (arch : String) : RunSt → List CallIn →
    Except String (RunSt × List StepInfo)
  | st, [] => .ok (st, [])
  | st, c :: cs =>
    match record env fl st.best_acc c.epoch c.acc c.netSd c.optSt arch
        st.fs with
    | .error e => .error e
    | .ok (ib, saved, best', fs', evs) =>
      match runRecords env fl arch ⟨best', fs'⟩ cs with
      | .error e => .error e
      | .ok (stF, infos) =>
        .ok (stF, ⟨ib, saved, best', evs⟩ :: infos)

/-- The snapshot-copy targets among a call's events: every copy
destination other than the rolling best-model file. -/
def snapTargets (evs : List Ev) : List String :=
  evs.filterMap fun e =>
    match e with
    | .copy _ dst => if dst = "model_best.pth.tar" then none else some dst
    | _ => none

/-- Top-level steps of one iteration of the main loop
(src/main.py lines 196-203): the train pass, the test pass (with the
events of its checkpoint section), the log append (with the row). -/
inductive TraceEv where
  | tr (e : Nat)
  | te (e : Nat) (evs : List Ev)
  | lg (e : Nat) (row : LogEntry)

/-- Shape of a top-level step: a tag and the epoch index. -/
def TraceEv.shape : TraceEv → Nat × Nat
  | .tr e => (0, e)
  | .te e _ => (1, e)
  | .lg e _ => (2, e)

/-- Per-run configuration: the environment, write-failure pattern, the
architecture name, and the per-epoch batch streams, parameter blobs and
wall-clock readings. -/
structure RunCfg where
  env : List (String × Nat)
  fl : WriteFlags
  arch : String
  trainB : Nat → List Batch
  testB : Nat → List Batch
  netSd : Nat → Nat
  optSt : Nat → Nat
  wallT : Nat → Rat

/-- State carried across main-loop iterations. -/
structure LoopSt where
  best_acc : Rat
  fs : FS
  trace : List TraceEv

/-- Appending one row to the log file (src/main.py lines 201-203,
`open(..., "a")` + `writerow`). -/
def logAppend (fs : FS) (row : LogEntry) : Option FS :=
  match fs "train_log.csv" with
  | some (.log rows) => some (fsWrite fs "train_log.csv" (.log (rows ++ [row])))
  | _ => none

/-- One iteration of the main loop (src/main.py lines 196-203): train,
test (which runs the checkpoint section), then append one log row. -/
def epochIter (cfg : RunCfg) (st : LoopSt) (e : Nat) :
    Except String LoopSt :=
  match trainMetrics (cfg.trainB e) with
  | none => .error "ZeroDivisionError"
  | some trLog =>
    match test cfg.env cfg.fl st.best_acc (e : Int) (cfg.testB e)
        (cfg.netSd e) (cfg.optSt e) cfg.arch st.fs with
    | .error err => .error err
    | .ok (teLog, _, best', fs', evs) =>
      let row : LogEntry := .row e trLog teLog (cfg.wallT e)
      match logAppend fs' row with
      | none => .error "IOError: train_log.csv"
      | some fs'' =>
        .ok { best_acc := best', fs := fs'',
              trace := st.trace ++ [.tr e, .te e evs, .lg e row] }

/-- The `for epoch in range(start_epoch, start_epoch+200)` loop
(src/main.py line 196), iterating from epoch `s`, `n` epochs left. -/
def loopFrom (cfg : RunCfg) : Nat → Nat → LoopSt → Except String LoopSt
  | _, 0, st => .ok st
  | s, n + 1, st =>
    match epochIter cfg st s with
    | .error e => .error e
    | .ok st' => loopFrom cfg (s + 1) n st'

/-- Run-start log initialization (src/main.py lines 191-193):
`open(..., "w")` truncates train_log.csv and the header row is
written. -/
def mainInit (fs0 : FS) : FS :=
  fsWrite fs0 "train_log.csv" (.log [.header])

/-- The whole post-resume program (src/main.py lines 190-203): truncate
and header the log, then run exactly 200 epochs from start_epoch. -/
def mainLoop (cfg : RunCfg) (start_epoch : Nat) (best0 : Rat) (fs0 : FS) :
    Except String LoopSt :=
  loopFrom cfg start_epoch 200 ⟨best0, mainInit fs0, []⟩

/-! ## Theorems -/

/-- The epoch pass of `train`/`test` finalizes to the list-level sums:
loss-sum over batch-count, 100 * correct over total, time-sum over
batch-count. -/
theorem finalizeMetrics_eq (bs : List Batch) (hne : bs ≠ [])
    (htot : totalSum bs ≠ 0) :
    finalizeMetrics bs = some
      { avg_loss := lossSum bs / bs.length,
        acc := 100 * (correctSum bs : Rat) / totalSum bs,
        avg_time := timeSum bs / bs.length } := by
  have hlen : bs.length ≠ 0 := by
    intro h; exact hne (List.length_eq_zero.mp h)
  unfold finalizeMetrics
  rw [foldBatches_eq_sums]
  simp [hlen, htot]

/-- Claim C5: for every non-empty sequence of batches (with at least
one sample), the finalized epoch value equals
(loss-sum / batch-count, 100 * correct-count / total-count,
elapsed-time-sum / batch-count), and a test pass that succeeds returns
exactly this value. -/
theorem claim_C5 (bs : List Batch) (hne : bs ≠ [])
    (htot : totalSum bs ≠ 0) :
    finalizeMetrics bs = some
      { avg_loss := lossSum bs / bs.length,
        acc := 100 * (correctSum bs : Rat) / totalSum bs,
        avg_time := timeSum bs / bs.length } ∧
    ∀ env fl b e sd opt arch fs m ib b' fs' evs,
      test env fl b e bs sd opt arch fs = .ok (m, ib, b', fs', evs) →
      m = { avg_loss := lossSum bs / bs.length,
            acc := 100 * (correctSum bs : Rat) / totalSum bs,
            avg_time := timeSum bs / bs.length } := by
  have hfin := finalizeMetrics_eq bs hne htot
  suffices h : ∀ X : EpochMetrics, finalizeMetrics bs = some X →
      ∀ env fl b e sd opt arch fs m ib b' fs' evs,
        test env fl b e bs sd opt arch fs = .ok (m, ib, b', fs', evs) →
        m = X by
    exact ⟨hfin, h _ hfin⟩
  intro X hX env fl b e sd opt arch fs m ib b' fs' evs htest
  unfold test at htest
  rw [hX] at htest
  dsimp only at htest
  cases hrec : record env fl b e X.acc sd opt arch fs with
  | error err =>
    rw [hrec] at htest
    exact absurd htest (by simp)
  | ok r =>
    obtain ⟨ib', saved, best', fs'', evs'⟩ := r
    rw [hrec] at htest
    simp only [Except.ok.injEq, Prod.mk.injEq] at htest
    exact htest.1.symm

/-- Claim C5 witness: the spec scenario — batches
(loss=1.0, correct=8, total=10, time=0.1) and
(loss=2.0, correct=9, total=10, time=0.2) finalize to
avg_loss = 1.5, accuracy = 85.0, avg_batch_time = 0.15. -/
theorem claim_C5_witness :
    finalizeMetrics
        [{ loss := 1, correct := 8, total := 10, btime := 1/10 },
         { loss := 2, correct := 9, total := 10, btime := 1/5 }] =
      some { avg_loss := 3/2, acc := 85, avg_time := 3/20 } := by
  have h := claim_C5
    [{ loss := 1, correct := 8, total := 10, btime := 1/10 },
     { loss := 2, correct := 9, total := 10, btime := 1/5 }]
    (by decide) (by decide)
  rw [h.1]
  simp only [lossSum, correctSum, totalSum, timeSum, List.map_cons,
    List.map_nil, List.sum_cons, List.sum_nil, List.length_cons,
    List.length_nil, Option.some.injEq, EpochMetrics.mk.injEq]
  norm_num

/-- Claim C9: an epoch pass over a non-empty batch sequence with
non-negative per-batch losses, per-batch correct counts bounded by the
batch size, and non-empty batches yields metrics with accuracy in
[0, 100] and a non-negative average loss; with zero batches the pass is
undefined (`none`). -/
theorem claim_C9 (bs : List Batch) (hne : bs ≠ [])
    (hb : ∀ b ∈ bs, 0 ≤ b.loss ∧ b.correct ≤ b.total ∧ 0 < b.total) :
    (∃ m, finalizeMetrics bs = some m ∧
      0 ≤ m.acc ∧ m.acc ≤ 100 ∧ 0 ≤ m.avg_loss) ∧
    finalizeMetrics [] = none := by
  constructor
  · -- totals are positive since bs is non-empty with positive batches
    obtain ⟨b0, t0, rfl⟩ := List.exists_cons_of_ne_nil hne
    have htpos : 0 < totalSum (b0 :: t0) := by
      have h0 : 0 < b0.total := (hb b0 (by simp)).2.2
      have : b0.total ≤ totalSum (b0 :: t0) := by
        simp only [totalSum, List.map_cons, List.sum_cons]
        exact Nat.le_add_right _ _
      omega
    set l := b0 :: t0 with hl
    have htot : totalSum l ≠ 0 := Nat.pos_iff_ne_zero.mp htpos
    have hfin := finalizeMetrics_eq l (by simp [hl]) htot
    refine ⟨_, hfin, ?_, ?_, ?_⟩
    · -- 0 ≤ 100 * correct / total
      have : (0 : Rat) < totalSum l := by exact_mod_cast htpos
      positivity
    · -- accuracy ≤ 100 since correctSum ≤ totalSum
      have hct : correctSum l ≤ totalSum l := by
        unfold correctSum totalSum
        exact List.sum_le_sum (fun b hbm => (hb b hbm).2.1)
      have htq : (0 : Rat) < totalSum l := by exact_mod_cast htpos
      rw [div_le_iff₀ htq]
      have : (correctSum l : Rat) ≤ (totalSum l : Rat) := by
        exact_mod_cast hct
      nlinarith
    · -- 0 ≤ avg_loss
      have hls : 0 ≤ lossSum l := by
        apply List.sum_nonneg
        intro x hx
        obtain ⟨b, hbm, rfl⟩ := List.mem_map.mp hx
        exact (hb b hbm).1
      have hlq : (0 : Rat) ≤ (l.length : Rat) := by positivity
      exact div_nonneg hls hlq
  · rfl

/-- When the checkpoint write and both copies succeed, a record call
returns: is_best = (best < acc), the written dict, and
best_acc = max acc best. -/
theorem record_ok_exists (env : List (String × Nat)) (fl : WriteFlags)
    (b : Rat) (e : Int) (acc : Rat) (sd opt : Nat) (arch : String)
    (fs : FS) (hck : fl.ckptOk = true) (hbc : fl.bestCopyOk = true)
    (hsc : fl.snapCopyOk = true) :
    ∃ fs' evs,
      record env fl b e acc sd opt arch fs =
        .ok (decide (b < acc),
          { epoch := e + 1, arch := arch, state_dict := sd,
            best_acc1 := max acc b, optimizer := opt },
          max acc b, fs', evs) := by
  unfold record save_checkpoint
  simp [hck, hbc, hsc]

/-- Claim C9 witness: a singleton batch with loss 2, 3 of 4 correct. -/
theorem claim_C9_witness :
    (∃ m, finalizeMetrics
        [{ loss := 2, correct := 3, total := 4, btime := 1 }] = some m ∧
      0 ≤ m.acc ∧ m.acc ≤ 100 ∧ 0 ≤ m.avg_loss) ∧
    finalizeMetrics [] = none :=
  claim_C9 [{ loss := 2, correct := 3, total := 4, btime := 1 }]
    (by decide) (by decide)

/-- Claim C1: after any non-empty sequence of consecutive record calls
with accuracies in [0,100] (and succeeding file writes), best_accuracy
equals the maximum of the initial best_accuracy and all supplied
accuracies, and the per-call best_accuracy values are monotonically
non-decreasing. -/
theorem claim_C1 (env : List (String × Nat)) (fl : WriteFlags)
    (arch : String) (st : RunSt) (calls : List CallIn)
    (hck : fl.ckptOk = true) (hbc : fl.bestCopyOk = true)
    (hsc : fl.snapCopyOk = true) (hne : calls ≠ [])
    (hrange : ∀ c ∈ calls, 0 ≤ c.acc ∧ c.acc ≤ 100) :
    ∃ stF infos, runRecords env fl arch st calls = .ok (stF, infos) ∧
      stF.best_acc ∈ st.best_acc :: calls.map CallIn.acc ∧
      (∀ x ∈ st.best_acc :: calls.map CallIn.acc, x ≤ stF.best_acc) ∧
      List.Chain (· ≤ ·) st.best_acc (infos.map StepInfo.best_after) := by
  clear hne hrange
  induction calls generalizing st with
  | nil =>
    exact ⟨st, [], rfl, by simp, by simp, List.Chain.nil⟩
  | cons c cs ih =>
    obtain ⟨fs', evs, hrec⟩ := record_ok_exists env fl st.best_acc c.epoch
      c.acc c.netSd c.optSt arch st.fs hck hbc hsc
    obtain ⟨stF, infos, hrun, hmem, hub, hchain⟩ :=
      ih ⟨max c.acc st.best_acc, fs'⟩
    refine ⟨stF, ⟨decide (st.best_acc < c.acc),
      { epoch := c.epoch + 1, arch := arch, state_dict := c.netSd,
        best_acc1 := max c.acc st.best_acc, optimizer := c.optSt },
      max c.acc st.best_acc, evs⟩ :: infos, ?_, ?_, ?_, ?_⟩
    · simp only [runRecords]
      rw [hrec]
      dsimp only
      rw [hrun]
    · -- membership: final best is the initial best or one of the accs
      have h' : stF.best_acc = max c.acc st.best_acc ∨
          stF.best_acc ∈ List.map CallIn.acc cs := List.mem_cons.mp hmem
      rcases h' with h | h
      · rcases max_choice c.acc st.best_acc with hmx | hmx
        · refine List.mem_cons.mpr (Or.inr ?_)
          rw [List.map_cons]
          exact List.mem_cons.mpr (Or.inl (by rw [h, hmx]))
        · exact List.mem_cons.mpr (Or.inl (by rw [h, hmx]))
      · refine List.mem_cons.mpr (Or.inr ?_)
        rw [List.map_cons]
        exact List.mem_cons.mpr (Or.inr h)
    · -- upper bound
      intro x hx
      have hhead : max c.acc st.best_acc ≤ stF.best_acc :=
        hub (max c.acc st.best_acc) (List.mem_cons_self _ _)
      have hx' : x = st.best_acc ∨ x = c.acc ∨
          x ∈ List.map CallIn.acc cs := by simpa using hx
      rcases hx' with rfl | rfl | hmm
      · exact le_trans (le_max_right c.acc st.best_acc) hhead
      · exact le_trans (le_max_left c.acc st.best_acc) hhead
      · exact hub x (List.mem_cons_of_mem _ hmm)
    · -- monotone chain of best values
      rw [List.map_cons]
      exact List.Chain.cons (le_max_right c.acc st.best_acc) hchain

/-- A snapshot file name is never the best-model file name. -/
theorem snapFile_ne_best (e : Int) :
    snapFile e ≠ "model_best.pth.tar" := by
  intro h
  have hd : (snapFile e).data.head? =
      ("model_best.pth.tar" : String).data.head? :=
    congrArg (fun s => s.data.head?) h
  rw [show (snapFile e).data.head? = some 'c' by
    unfold snapFile
    rw [String.data_append, String.data_append]
    rfl] at hd
  exact absurd hd (by decide)

/-- The convenience-export block never copies files. -/
theorem tryExport_no_copy (env : List (String × Nat)) (ok : Bool)
    (f : String) (mk : Nat → FileData) (fs : FS) :
    ∀ s d, Ev.copy s d ∉ (tryExport env ok f mk fs).2 := by
  intro s d
  unfold tryExport
  rcases env.lookup "model" with _ | v
  · simp
  · cases ok <;> simp

/-- Under succeeding writes, a record call's event list is: the export
events (when is_best), the checkpoint write, the best-model copy (when
is_best), and the snapshot copy (exactly when epoch % 10 == 0). -/
theorem record_evs (env : List (String × Nat)) (fl : WriteFlags)
    (b : Rat) (e : Int) (acc : Rat) (sd opt : Nat) (arch : String)
    (fs : FS) (hck : fl.ckptOk = true) (hbc : fl.bestCopyOk = true)
    (hsc : fl.snapCopyOk = true) :
    ∃ fs',
      record env fl b e acc sd opt arch fs =
        .ok (decide (b < acc),
          { epoch := e + 1, arch := arch, state_dict := sd,
            best_acc1 := max acc b, optimizer := opt },
          max acc b, fs',
          (if decide (b < acc) then
            (tryExport env fl.modelOk "model.pth" FileData.modelObj fs).2 ++
            (tryExport env fl.weightsOk "weights.pth" FileData.weights
              (tryExport env fl.modelOk "model.pth" FileData.modelObj
                fs).1).2
           else []) ++
          Ev.write ckptFile ::
            ((if decide (b < acc) then
                [Ev.copy ckptFile "model_best.pth.tar"] else []) ++
             (if e % 10 == 0 then
                [Ev.copy ckptFile (snapFile e)] else []))) := by
  unfold record save_checkpoint
  simp [hck, hbc, hsc]
  split <;> rfl

/-- Per record call (succeeding writes): a snapshot copy happens iff
epoch % 10 == 0, any copy targets only the best-model file or this
epoch's snapshot file, and the dict written stores epoch + 1. -/
theorem record_copy_facts (env : List (String × Nat)) (fl : WriteFlags)
    (b : Rat) (e : Int) (acc : Rat) (sd opt : Nat) (arch : String)
    (fs : FS) (hck : fl.ckptOk = true) (hbc : fl.bestCopyOk = true)
    (hsc : fl.snapCopyOk = true) :
    ∃ ib saved b' fs' evs,
      record env fl b e acc sd opt arch fs =
        .ok (ib, saved, b', fs', evs) ∧
      saved.epoch = e + 1 ∧
      ((Ev.copy ckptFile (snapFile e) ∈ evs) ↔ e % 10 = 0) ∧
      (∀ d, Ev.copy ckptFile d ∈ evs →
        d = "model_best.pth.tar" ∨ d = snapFile e) := by
  obtain ⟨fs', hrec⟩ := record_evs env fl b e acc sd opt arch fs hck hbc hsc
  refine ⟨_, _, _, _, _, hrec, rfl, ?_, ?_⟩
  · constructor
    · intro hmem
      rcases List.mem_append.mp hmem with hA | hW
      · -- the export events contain no copies
        by_cases hib : decide (b < acc) = true
        · rw [if_pos hib] at hA
          rcases List.mem_append.mp hA with h1 | h2
          · exact absurd h1 (tryExport_no_copy _ _ _ _ _ _ _)
          · exact absurd h2 (tryExport_no_copy _ _ _ _ _ _ _)
        · rw [if_neg hib] at hA
          exact absurd hA (List.not_mem_nil _)
      · rcases List.mem_cons.mp hW with h1 | h2
        · exact absurd h1 (by simp)
        · rcases List.mem_append.mp h2 with hB | hC
          · by_cases hib : decide (b < acc) = true
            · rw [if_pos hib] at hB
              have : snapFile e = "model_best.pth.tar" := by
                simpa using hB
              exact absurd this (snapFile_ne_best e)
            · rw [if_neg hib] at hB
              exact absurd hB (List.not_mem_nil _)
          · by_cases hcond : (e % 10 == 0) = true
            · exact beq_iff_eq.mp hcond
            · rw [if_neg hcond] at hC
              exact absurd hC (List.not_mem_nil _)
    · intro hcond
      refine List.mem_append.mpr (Or.inr ?_)
      refine List.mem_cons.mpr (Or.inr ?_)
      refine List.mem_append.mpr (Or.inr ?_)
      rw [if_pos (beq_iff_eq.mpr hcond)]
      exact List.mem_cons_self _ _
  · intro d hmem
    rcases List.mem_append.mp hmem with hA | hW
    · by_cases hib : decide (b < acc) = true
      · rw [if_pos hib] at hA
        rcases List.mem_append.mp hA with h1 | h2
        · exact absurd h1 (tryExport_no_copy _ _ _ _ _ _ _)
        · exact absurd h2 (tryExport_no_copy _ _ _ _ _ _ _)
      · rw [if_neg hib] at hA
        exact absurd hA (List.not_mem_nil _)
    · rcases List.mem_cons.mp hW with h1 | h2
      · exact absurd h1 (by simp)
      · rcases List.mem_append.mp h2 with hB | hC
        · by_cases hib : decide (b < acc) = true
          · rw [if_pos hib] at hB
            exact Or.inl (by simpa using hB)
          · rw [if_neg hib] at hB
            exact absurd hB (List.not_mem_nil _)
        · by_cases hcond : (e % 10 == 0) = true
          · rw [if_pos hcond] at hC
            exact Or.inr (by simpa using hC)
          · rw [if_neg hcond] at hC
            exact absurd hC (List.not_mem_nil _)

/-- Indexed account of a run of record calls (succeeding writes): call
i writes a dict storing epoch+1, makes a snapshot copy iff its epoch is
divisible by 10, and copies only to the best-model file or its own
snapshot file. -/
theorem runRecords_index (env : List (String × Nat)) (fl : WriteFlags)
    (arch : String) (hck : fl.ckptOk = true) (hbc : fl.bestCopyOk = true)
    (hsc : fl.snapCopyOk = true) :
    ∀ (calls : List CallIn) (st : RunSt),
    ∃ stF infos, runRecords env fl arch st calls = .ok (stF, infos) ∧
      infos.length = calls.length ∧
      ∀ i (hi : i < calls.length) (hi' : i < infos.length),
        (infos.get ⟨i, hi'⟩).saved.epoch = (calls.get ⟨i, hi⟩).epoch + 1 ∧
        ((Ev.copy ckptFile (snapFile (calls.get ⟨i, hi⟩).epoch) ∈
            (infos.get ⟨i, hi'⟩).events) ↔
          (calls.get ⟨i, hi⟩).epoch % 10 = 0) ∧
        (∀ d, Ev.copy ckptFile d ∈ (infos.get ⟨i, hi'⟩).events →
          d = "model_best.pth.tar" ∨
          d = snapFile (calls.get ⟨i, hi⟩).epoch) := by
  intro calls
  induction calls with
  | nil =>
    intro st
    exact ⟨st, [], rfl, rfl, fun i hi _ => absurd hi (by simp)⟩
  | cons c cs ih =>
    intro st
    obtain ⟨ib, saved, b', fs', evs, hrec, hsaved, hiff, hall⟩ :=
      record_copy_facts env fl st.best_acc c.epoch c.acc c.netSd c.optSt
        arch st.fs hck hbc hsc
    obtain ⟨stF, infos, hrun, hlen, hidx⟩ := ih ⟨b', fs'⟩
    refine ⟨stF, ⟨ib, saved, b', evs⟩ :: infos, ?_, by simpa using hlen, ?_⟩
    · simp only [runRecords]
      rw [hrec]
      dsimp only
      rw [hrun]
    · intro i hi hi'
      cases i with
      | zero => exact ⟨hsaved, hiff, hall⟩
      | succ j =>
        have hj : j < cs.length := by simpa using hi
        have hj' : j < infos.length := by simpa using hi'
        exact hidx j hj hj'

/-- Claim C2: per record call, a permanent snapshot copy of
checkpoint.pth.tar is made iff epoch_index % 10 == 0; over the epoch
sequence 0..29 snapshots appear exactly at indices 0, 10 and 20 (and
no call touches another index's snapshot file), and the three snapshot
file names are pairwise distinct, so no snapshot is overwritten. -/
theorem claim_C2 (env : List (String × Nat)) (fl : WriteFlags)
    (arch : String) (st : RunSt) (accf : Nat → Rat) (sdf optf : Nat → Nat)
    (hck : fl.ckptOk = true) (hbc : fl.bestCopyOk = true)
    (hsc : fl.snapCopyOk = true) :
    (∀ (b : Rat) (e : Int) (acc : Rat) (sd opt : Nat) (fs : FS),
      ∃ ib saved b' fs' evs,
        record env fl b e acc sd opt arch fs = .ok (ib, saved, b', fs', evs) ∧
        ((Ev.copy ckptFile (snapFile e) ∈ evs) ↔ e % 10 = 0) ∧
        (∀ d, Ev.copy ckptFile d ∈ evs →
          d = "model_best.pth.tar" ∨ d = snapFile e)) ∧
    (∃ stF infos,
      runRecords env fl arch st ((List.range 30).map fun (n : Nat) =>
        { epoch := (n : Int), acc := accf n, netSd := sdf n,
          optSt := optf n }) = .ok (stF, infos) ∧
      infos.length = 30 ∧
      (∀ i (hi' : i < infos.length),
        ((Ev.copy ckptFile (snapFile (i : Int)) ∈ infos[i].events) ↔
          (i = 0 ∨ i = 10 ∨ i = 20)) ∧
        (∀ d, Ev.copy ckptFile d ∈ infos[i].events →
          d = "model_best.pth.tar" ∨ d = snapFile (i : Int))) ∧
      [snapFile 0, snapFile 10, snapFile 20].Nodup) := by
  constructor
  · intro b e acc sd opt fs
    obtain ⟨ib, saved, b', fs', evs, hrec, _, hiff, hall⟩ :=
      record_copy_facts env fl b e acc sd opt arch fs hck hbc hsc
    exact ⟨ib, saved, b', fs', evs, hrec, hiff, hall⟩
  · obtain ⟨stF, infos, hrun, hlen, hidx⟩ :=
      runRecords_index env fl arch hck hbc hsc
        ((List.range 30).map fun (n : Nat) =>
          { epoch := (n : Int), acc := accf n, netSd := sdf n,
            optSt := optf n }) st
    have hlen30 : infos.length = 30 := by simpa using hlen
    refine ⟨stF, infos, hrun, hlen30, ?_, by decide⟩
    intro i hi'
    have hi : i < ((List.range 30).map fun (n : Nat) =>
        ({ epoch := (n : Int), acc := accf n, netSd := sdf n,
           optSt := optf n } : CallIn)).length := by
      simp; omega
    obtain ⟨_, hiff, hall⟩ := hidx i hi hi'
    have hc : (((List.range 30).map fun (n : Nat) =>
        ({ epoch := (n : Int), acc := accf n, netSd := sdf n,
           optSt := optf n } : CallIn)).get ⟨i, hi⟩).epoch = (i : Int) := by
      simp
    rw [hc] at hiff hall
    have hi30 : i < 30 := by omega
    constructor
    · rw [show (Ev.copy ckptFile (snapFile (i : Int)) ∈ infos[i].events) =
        (Ev.copy ckptFile (snapFile (i : Int)) ∈
          (infos.get ⟨i, hi'⟩).events) from rfl]
      rw [hiff]
      omega
    · exact hall

/-- Claim C2 witness: a 30-epoch run from a fresh state with accuracy
n at epoch n. -/
theorem claim_C2_witness :
    (∀ (b : Rat) (e : Int) (acc : Rat) (sd opt : Nat) (fs : FS),
      ∃ ib saved b' fs' evs,
        record mainGlobals allOk b e acc sd opt "MobileNetV2" fs =
          .ok (ib, saved, b', fs', evs) ∧
        ((Ev.copy ckptFile (snapFile e) ∈ evs) ↔ e % 10 = 0) ∧
        (∀ d, Ev.copy ckptFile d ∈ evs →
          d = "model_best.pth.tar" ∨ d = snapFile e)) ∧
    (∃ stF infos,
      runRecords mainGlobals allOk "MobileNetV2" ⟨0, fun _ => none⟩
        ((List.range 30).map fun (n : Nat) =>
          { epoch := (n : Int), acc := (n : Rat), netSd := n,
            optSt := n }) = .ok (stF, infos) ∧
      infos.length = 30 ∧
      (∀ i (hi' : i < infos.length),
        ((Ev.copy ckptFile (snapFile (i : Int)) ∈ infos[i].events) ↔
          (i = 0 ∨ i = 10 ∨ i = 20)) ∧
        (∀ d, Ev.copy ckptFile d ∈ infos[i].events →
          d = "model_best.pth.tar" ∨ d = snapFile (i : Int))) ∧
      [snapFile 0, snapFile 10, snapFile 20].Nodup) :=
  claim_C2 mainGlobals allOk "MobileNetV2" ⟨0, fun _ => none⟩
    (fun n => (n : Rat)) (fun n => n) (fun n => n) rfl rfl rfl

/-- Claim C1 witness: two record calls with accuracies 30 then 20 from
initial best 0. -/
theorem claim_C1_witness :
    ∃ stF infos,
      runRecords mainGlobals allOk "MobileNetV2"
        ⟨0, fun _ => none⟩
        [{ epoch := 0, acc := 30, netSd := 0, optSt := 0 },
         { epoch := 1, acc := 20, netSd := 1, optSt := 1 }] =
        .ok (stF, infos) ∧
      stF.best_acc ∈ (0 : Rat) :: [(30 : Rat), 20] ∧
      (∀ x ∈ (0 : Rat) :: [(30 : Rat), 20], x ≤ stF.best_acc) ∧
      List.Chain (· ≤ ·) 0 (infos.map StepInfo.best_after) :=
  claim_C1 mainGlobals allOk "MobileNetV2" ⟨0, fun _ => none⟩
    [{ epoch := 0, acc := 30, netSd := 0, optSt := 0 },
     { epoch := 1, acc := 20, netSd := 1, optSt := 1 }]
    rfl rfl rfl (List.cons_ne_nil _ _) (by decide)

/-- A snapshot file name starts with the character c. -/
theorem snapFile_head (e : Int) : (snapFile e).data.head? = some 'c' := by
  unfold snapFile
  rw [String.data_append, String.data_append]
  rfl

/-- A snapshot file name has an underscore at index 10. -/
theorem snapFile_get10 (e : Int) :
    (snapFile e).data.get? 10 = some '_' := by
  unfold snapFile
  rw [String.data_append, String.data_append, List.append_assoc]
  rw [List.get?_append (by decide)]
  rfl

/-- Snapshot file names differ from any name not starting with c. -/
theorem snapFile_ne_of_head (e : Int) (s : String)
    (hs : s.data.head? ≠ some 'c') : snapFile e ≠ s :=
  fun h => hs (h ▸ snapFile_head e)

/-- Snapshot file names differ from any name without an underscore at
index 10. -/
theorem snapFile_ne_of_get10 (e : Int) (s : String)
    (hs : s.data.get? 10 ≠ some '_') : snapFile e ≠ s :=
  fun h => hs (h ▸ snapFile_get10 e)

/-- A snapshot file name is never the rolling checkpoint file name
(they differ at index 10: an underscore versus a dot). -/
theorem snapFile_ne_ckptFile (e : Int) : snapFile e ≠ ckptFile :=
  snapFile_ne_of_get10 e _ (by decide)

/-- The convenience-export block touches no file but its own target. -/
theorem tryExport_fs (env : List (String × Nat)) (ok : Bool)
    (f : String) (mk : Nat → FileData) (fs : FS) (n : String)
    (hn : n ≠ f) : (tryExport env ok f mk fs).1 n = fs n := by
  unfold tryExport
  rcases env.lookup "model" with _ | v
  · rfl
  · cases ok
    · rfl
    · simp [fsWrite, hn]

/-- Fully explicit form of a record call under succeeding writes:
result flag, dict, best value, final directory and events. -/
theorem record_full (env : List (String × Nat)) (fl : WriteFlags)
    (b : Rat) (e : Int) (acc : Rat) (sd opt : Nat) (arch : String)
    (fs : FS) (hck : fl.ckptOk = true) (hbc : fl.bestCopyOk = true)
    (hsc : fl.snapCopyOk = true) :
    record env fl b e acc sd opt arch fs =
      .ok (decide (b < acc),
        { epoch := e + 1, arch := arch, state_dict := sd,
          best_acc1 := max acc b, optimizer := opt },
        max acc b,
        (let fsE := if decide (b < acc) then
            (tryExport env fl.weightsOk "weights.pth" FileData.weights
              (tryExport env fl.modelOk "model.pth" FileData.modelObj
                fs).1).1
          else fs
         let fs1 := fsWrite fsE ckptFile
            (.ckpt { epoch := e + 1, arch := arch, state_dict := sd,
                     best_acc1 := max acc b, optimizer := opt })
         let fs2 := if decide (b < acc) then
            fsCopy fs1 ckptFile "model_best.pth.tar" else fs1
         if e % 10 == 0 then fsCopy fs2 ckptFile (snapFile e) else fs2),
        (if decide (b < acc) then
          (tryExport env fl.modelOk "model.pth" FileData.modelObj fs).2 ++
          (tryExport env fl.weightsOk "weights.pth" FileData.weights
            (tryExport env fl.modelOk "model.pth" FileData.modelObj
              fs).1).2
         else []) ++
        Ev.write ckptFile ::
          ((if decide (b < acc) then
              [Ev.copy ckptFile "model_best.pth.tar"] else []) ++
           (if e % 10 == 0 then
              [Ev.copy ckptFile (snapFile e)] else []))) := by
  unfold record save_checkpoint
  simp [hck, hbc, hsc]
  constructor <;> by_cases hba : b < acc <;> simp [hba]

/-- Directory contents after one record call (succeeding writes): the
rolling checkpoint holds the dict just written; the best-model file
holds that same dict when is_best, and is untouched otherwise. -/
theorem record_fs_facts (env : List (String × Nat)) (fl : WriteFlags)
    (b : Rat) (e : Int) (acc : Rat) (sd opt : Nat) (arch : String)
    (fs : FS) (hck : fl.ckptOk = true) (hbc : fl.bestCopyOk = true)
    (hsc : fl.snapCopyOk = true) :
    ∃ fs' evs,
      record env fl b e acc sd opt arch fs =
        .ok (decide (b < acc),
          { epoch := e + 1, arch := arch, state_dict := sd,
            best_acc1 := max acc b, optimizer := opt },
          max acc b, fs', evs) ∧
      fs' ckptFile = some (.ckpt
        { epoch := e + 1, arch := arch, state_dict := sd,
          best_acc1 := max acc b, optimizer := opt }) ∧
      (decide (b < acc) = true →
        fs' "model_best.pth.tar" = some (.ckpt
          { epoch := e + 1, arch := arch, state_dict := sd,
            best_acc1 := max acc b, optimizer := opt })) ∧
      (decide (b < acc) = false →
        fs' "model_best.pth.tar" = fs "model_best.pth.tar") := by
  have h := record_full env fl b e acc sd opt arch fs hck hbc hsc
  have hck_snap : ¬ (ckptFile = snapFile e) :=
    fun hh => snapFile_ne_ckptFile e hh.symm
  have hmb_snap : ¬ (("model_best.pth.tar" : String) = snapFile e) :=
    fun hh => snapFile_ne_best e hh.symm
  have hck_mb : ¬ (ckptFile = "model_best.pth.tar") := by decide
  have hmb_ck : ¬ (("model_best.pth.tar" : String) = ckptFile) := by
    decide
  refine ⟨_, _, h, ?_, ?_, ?_⟩
  · -- checkpoint.pth.tar content
    by_cases hib : decide (b < acc) = true <;>
      by_cases hc : (e % 10 == 0) = true <;>
        simp [hib, hc, fsCopy, fsWrite, hck_snap, hck_mb]
  · -- model_best content when is_best
    intro hib
    by_cases hc : (e % 10 == 0) = true <;>
      simp [hib, hc, fsCopy, fsWrite, hmb_snap]
  · -- model_best untouched when not best
    intro hib
    by_cases hc : (e % 10 == 0) = true <;>
      simp [hib, hc, fsCopy, fsWrite, hmb_snap, hmb_ck]

/-- Inversion of a run on a first call: the record call succeeded and
the tail ran from the updated state. -/
theorem runRecords_cons_inv (env : List (String × Nat)) (fl : WriteFlags)
    (arch : String) (st : RunSt) (c : CallIn) (cs : List CallIn)
    (out : RunSt × List StepInfo)
    (h : runRecords env fl arch st (c :: cs) = .ok out) :
    ∃ ib saved b' fs' evs stF infos,
      record env fl st.best_acc c.epoch c.acc c.netSd c.optSt arch
        st.fs = .ok (ib, saved, b', fs', evs) ∧
      runRecords env fl arch ⟨b', fs'⟩ cs = .ok (stF, infos) ∧
      out = (stF, ⟨ib, saved, b', evs⟩ :: infos) := by
  simp only [runRecords] at h
  cases hrec : record env fl st.best_acc c.epoch c.acc c.netSd c.optSt
      arch st.fs with
  | error err => rw [hrec] at h; exact absurd h (by simp)
  | ok r =>
    obtain ⟨ib, saved, b', fs', evs⟩ := r
    rw [hrec] at h
    dsimp only at h
    cases hrun : runRecords env fl arch ⟨b', fs'⟩ cs with
    | error err => rw [hrun] at h; exact absurd h (by simp)
    | ok p =>
      obtain ⟨stF, infos⟩ := p
      rw [hrun] at h
      dsimp only at h
      refine ⟨ib, saved, b', fs', evs, stF, infos, rfl, hrun, ?_⟩
      injection h with h2
      exact h2.symm

/-- If no call of a run is a best call, the best-model file is left
untouched. -/
theorem runRecords_best_frame (env : List (String × Nat))
    (fl : WriteFlags) (arch : String) (hck : fl.ckptOk = true)
    (hbc : fl.bestCopyOk = true) (hsc : fl.snapCopyOk = true) :
    ∀ (calls : List CallIn) (st stF : RunSt) (infos : List StepInfo),
      runRecords env fl arch st calls = .ok (stF, infos) →
      (∀ j (hj : j < infos.length), infos[j].is_best = false) →
      stF.fs "model_best.pth.tar" = st.fs "model_best.pth.tar" := by
  intro calls
  induction calls with
  | nil =>
    intro st stF infos h _
    simp only [runRecords, Except.ok.injEq, Prod.mk.injEq] at h
    rw [← h.1]
  | cons c cs ih =>
    intro st stF infos h hnb
    obtain ⟨ib, saved, b', fs', evs, stF', infos', hrec, hrun, hout⟩ :=
      runRecords_cons_inv env fl arch st c cs _ h
    have hsF : stF = stF' := congrArg Prod.fst hout
    have hinfos : infos = ⟨ib, saved, b', evs⟩ :: infos' :=
      congrArg Prod.snd hout
    obtain ⟨fs'', evs'', hrec2, _, _, hbF⟩ :=
      record_fs_facts env fl st.best_acc c.epoch c.acc c.netSd c.optSt
        arch st.fs hck hbc hsc
    rw [hrec] at hrec2
    simp only [Except.ok.injEq, Prod.mk.injEq] at hrec2
    obtain ⟨hib, _, _, hfs, _⟩ := hrec2
    subst hsF
    have h0 : ib = false := by
      have := hnb 0 (by rw [hinfos]; simp)
      simp only [hinfos] at this
      simpa using this
    have hfr : fs' "model_best.pth.tar" = st.fs "model_best.pth.tar" :=
      (congrFun hfs "model_best.pth.tar").trans
        (hbF (by rw [← hib, h0]))
    have htail : stF.fs "model_best.pth.tar" =
        fs' "model_best.pth.tar" := by
      refine ih ⟨b', fs'⟩ stF infos' hrun ?_
      intro j hj
      have := hnb (j + 1) (by rw [hinfos]; simpa using hj)
      simp only [hinfos] at this
      simpa using this
    exact htail.trans hfr

/-- After a run whose last best call is at index k, the best-model file
holds exactly the checkpoint dict written at call k. -/
theorem runRecords_last_best (env : List (String × Nat))
    (fl : WriteFlags) (arch : String) (hck : fl.ckptOk = true)
    (hbc : fl.bestCopyOk = true) (hsc : fl.snapCopyOk = true) :
    ∀ (calls : List CallIn) (st stF : RunSt) (infos : List StepInfo),
      runRecords env fl arch st calls = .ok (stF, infos) →
      ∀ k (hk : k < infos.length),
        infos[k].is_best = true →
        (∀ j (hj : j < infos.length), k < j → infos[j].is_best = false) →
        stF.fs "model_best.pth.tar" = some (.ckpt infos[k].saved) := by
  intro calls
  induction calls with
  | nil =>
    intro st stF infos h k hk _ _
    simp only [runRecords, Except.ok.injEq, Prod.mk.injEq] at h
    rw [← h.2] at hk
    exact absurd hk (by simp)
  | cons c cs ih =>
    intro st stF infos h k hk hbest hafter
    obtain ⟨ib, saved, b', fs', evs, stF', infos', hrec, hrun, hout⟩ :=
      runRecords_cons_inv env fl arch st c cs _ h
    have hsF : stF = stF' := congrArg Prod.fst hout
    have hinfos : infos = ⟨ib, saved, b', evs⟩ :: infos' :=
      congrArg Prod.snd hout
    obtain ⟨fs'', evs'', hrec2, hckpt, hbT, hbF⟩ :=
      record_fs_facts env fl st.best_acc c.epoch c.acc c.netSd c.optSt
        arch st.fs hck hbc hsc
    rw [hrec] at hrec2
    simp only [Except.ok.injEq, Prod.mk.injEq] at hrec2
    obtain ⟨hib, hsv, _, hfs, _⟩ := hrec2
    subst hsF
    cases k with
    | zero =>
      have hib_true : ib = true := by
        have := hbest
        simp only [hinfos] at this
        simpa using this
      have hbase : fs' "model_best.pth.tar" = some (.ckpt saved) := by
        rw [hfs, hsv]
        exact hbT (by rw [← hib, hib_true])
      have htail : stF.fs "model_best.pth.tar" =
          fs' "model_best.pth.tar" := by
        refine runRecords_best_frame env fl arch hck hbc hsc cs
          ⟨b', fs'⟩ stF infos' hrun ?_
        intro j hj
        have := hafter (j + 1) (by rw [hinfos]; simpa using hj)
          (by omega)
        simp only [hinfos] at this
        simpa using this
      rw [htail, hbase]
      simp [hinfos]
    | succ j =>
      have hj : j < infos'.length := by
        have := hk
        simp only [hinfos] at this
        simpa using this
      have hbest' : infos'[j].is_best = true := by
        have := hbest
        simp only [hinfos] at this
        simpa using this
      have hafter' : ∀ j' (hj' : j' < infos'.length), j < j' →
          infos'[j'].is_best = false := by
        intro j' hj' hlt
        have := hafter (j' + 1) (by rw [hinfos]; simpa using hj')
          (by omega)
        simp only [hinfos] at this
        simpa using this
      have := ih ⟨b', fs'⟩ stF infos' hrun j hj hbest' hafter'
      rw [this]
      simp [hinfos]

/-- Claim C3: is_best holds exactly when the accuracy strictly exceeds
the prior best; the checkpoint is copied to model_best.pth.tar exactly
when is_best (so model_best then holds the dict just written and is
untouched otherwise); and after any run, model_best.pth.tar holds the
checkpoint dict of the last best call, unchanged by subsequent
non-best calls (and is untouched if no call was best). -/
theorem claim_C3 (env : List (String × Nat)) (fl : WriteFlags)
    (arch : String) (hck : fl.ckptOk = true) (hbc : fl.bestCopyOk = true)
    (hsc : fl.snapCopyOk = true) :
    (∀ (b : Rat) (e : Int) (acc : Rat) (sd opt : Nat) (fs : FS),
      ∃ ib saved b' fs' evs,
        record env fl b e acc sd opt arch fs =
          .ok (ib, saved, b', fs', evs) ∧
        (ib = true ↔ b < acc) ∧
        fs' ckptFile = some (.ckpt saved) ∧
        (ib = true → fs' "model_best.pth.tar" = some (.ckpt saved)) ∧
        (ib = false →
          fs' "model_best.pth.tar" = fs "model_best.pth.tar")) ∧
    (∀ (st : RunSt) (calls : List CallIn) (stF : RunSt)
        (infos : List StepInfo),
      runRecords env fl arch st calls = .ok (stF, infos) →
      (∀ k (hk : k < infos.length),
        infos[k].is_best = true →
        (∀ j (hj : j < infos.length), k < j → infos[j].is_best = false) →
        stF.fs "model_best.pth.tar" = some (.ckpt infos[k].saved)) ∧
      ((∀ j (hj : j < infos.length), infos[j].is_best = false) →
        stF.fs "model_best.pth.tar" = st.fs "model_best.pth.tar")) := by
  constructor
  · intro b e acc sd opt fs
    obtain ⟨fs', evs, hrec, hckpt, hbT, hbF⟩ :=
      record_fs_facts env fl b e acc sd opt arch fs hck hbc hsc
    exact ⟨_, _, _, _, _, hrec, by simp, hckpt, hbT, hbF⟩
  · intro st calls stF infos hrun
    exact ⟨runRecords_last_best env fl arch hck hbc hsc calls st stF
        infos hrun,
      runRecords_best_frame env fl arch hck hbc hsc calls st stF
        infos hrun⟩

/-- Claim C3 witness: instantiated at the program's globals with all
writes succeeding. -/
theorem claim_C3_witness :
    (∀ (b : Rat) (e : Int) (acc : Rat) (sd opt : Nat) (fs : FS),
      ∃ ib saved b' fs' evs,
        record mainGlobals allOk b e acc sd opt "MobileNetV2" fs =
          .ok (ib, saved, b', fs', evs) ∧
        (ib = true ↔ b < acc) ∧
        fs' ckptFile = some (.ckpt saved) ∧
        (ib = true → fs' "model_best.pth.tar" = some (.ckpt saved)) ∧
        (ib = false →
          fs' "model_best.pth.tar" = fs "model_best.pth.tar")) ∧
    (∀ (st : RunSt) (calls : List CallIn) (stF : RunSt)
        (infos : List StepInfo),
      runRecords mainGlobals allOk "MobileNetV2" st calls =
        .ok (stF, infos) →
      (∀ k (hk : k < infos.length),
        infos[k].is_best = true →
        (∀ j (hj : j < infos.length), k < j → infos[j].is_best = false) →
        stF.fs "model_best.pth.tar" = some (.ckpt infos[k].saved)) ∧
      ((∀ j (hj : j < infos.length), infos[j].is_best = false) →
        stF.fs "model_best.pth.tar" = st.fs "model_best.pth.tar")) :=
  claim_C3 mainGlobals allOk "MobileNetV2" rfl rfl rfl

/-- The name `model` is not bound in the program's globals. -/
theorem lookup_model_none : List.lookup "model" mainGlobals = none := by
  rfl

/-- With `model` unbound, an export attempt leaves the directory
unchanged and prints only the warning. -/
theorem tryExport_model_unbound (ok : Bool) (f : String)
    (mk : Nat → FileData) (fs : FS) :
    tryExport mainGlobals ok f mk fs =
      (fs, [Ev.warn ("WARNING: Unable to save " ++ f)]) := by
  unfold tryExport
  rw [lookup_model_none]

/-- A failing export (unbound name or failing write) emits exactly the
warning event. -/
theorem tryExport_fail (env : List (String × Nat)) (ok : Bool)
    (f : String) (mk : Nat → FileData) (fs : FS)
    (h : List.lookup "model" env = none ∨ ok = false) :
    (tryExport env ok f mk fs).2 =
      [Ev.warn ("WARNING: Unable to save " ++ f)] := by
  unfold tryExport
  rcases h with h | h
  · rw [h]
  · rcases hl : List.lookup "model" env with _ | v <;> simp [hl, h]

/-- Claim C4 (code divergence): after a successful record call at
epoch 0, the rolling checkpoint file checkpoint.pth.tar holds the dict
with keys epoch/arch/state_dict/best_acc1/optimizer, but the resume
block reads the different file name checkpoint.pth — which no run ever
writes — so resuming fails; moreover the keys `net` and `acc` that
resume reads are absent from the written dict. -/
theorem claim_C4_counterexample :
    ∃ fs' evs,
      record mainGlobals allOk 0 0 50 7 9 "MobileNetV2"
        (fun _ => none) =
        .ok (true,
          { epoch := 1, arch := "MobileNetV2", state_dict := 7,
            best_acc1 := 50, optimizer := 9 },
          50, fs', evs) ∧
      fs' ckptFile = some (.ckpt
        { epoch := 1, arch := "MobileNetV2", state_dict := 7,
          best_acc1 := 50, optimizer := 9 }) ∧
      fs' "checkpoint.pth" = none ∧
      resume fs' = .error "FileNotFoundError: checkpoint.pth" ∧
      Ckpt.getKey
        { epoch := 1, arch := "MobileNetV2", state_dict := 7,
          best_acc1 := 50, optimizer := 9 } "net" = none ∧
      Ckpt.getKey
        { epoch := 1, arch := "MobileNetV2", state_dict := 7,
          best_acc1 := 50, optimizer := 9 } "acc" = none := by
  have h := record_full mainGlobals allOk 0 0 50 7 9 "MobileNetV2"
    (fun _ => none) rfl rfl rfl
  refine ⟨_, _, h, rfl, rfl, rfl, rfl, rfl⟩

/-- Claim C10: the name `model` is never bound (the network is bound
to `net`), so on every best call both convenience exports fail with
their warnings, no write of model.pth or weights.pth ever happens, and
those two files are left exactly as they were. -/
theorem claim_C10 :
    List.lookup "model" mainGlobals = none ∧
    ∀ (fl : WriteFlags) (b : Rat) (e : Int) (acc : Rat) (sd opt : Nat)
      (arch : String) (fs : FS),
      fl.ckptOk = true → fl.bestCopyOk = true → fl.snapCopyOk = true →
      ∃ ib saved b' fs' evs,
        record mainGlobals fl b e acc sd opt arch fs =
          .ok (ib, saved, b', fs', evs) ∧
        (ib = true →
          Ev.warn "WARNING: Unable to save model.pth" ∈ evs ∧
          Ev.warn "WARNING: Unable to save weights.pth" ∈ evs) ∧
        Ev.write "model.pth" ∉ evs ∧
        Ev.write "weights.pth" ∉ evs ∧
        fs' "model.pth" = fs "model.pth" ∧
        fs' "weights.pth" = fs "weights.pth" := by
  refine ⟨lookup_model_none, ?_⟩
  intro fl b e acc sd opt arch fs hck hbc hsc
  have h := record_full mainGlobals fl b e acc sd opt arch fs hck hbc hsc
  simp only [tryExport_model_unbound] at h
  refine ⟨_, _, _, _, _, h, ?_, ?_, ?_, ?_, ?_⟩
  · -- both warnings appear on a best call
    intro hib
    rw [hib]
    simp
  · -- no write of model.pth
    have h1 : Ev.write "model.pth" ≠ Ev.write ckptFile := by
      simp [ckptFile]
    by_cases hib : decide (b < acc) = true <;>
      by_cases hcond : (e % 10 == 0) = true <;>
        simp [hib, hcond, h1]
  · -- no write of weights.pth
    have h1 : Ev.write "weights.pth" ≠ Ev.write ckptFile := by
      simp [ckptFile]
    by_cases hib : decide (b < acc) = true <;>
      by_cases hcond : (e % 10 == 0) = true <;>
        simp [hib, hcond, h1]
  · -- model.pth untouched
    have h1 : ¬ (("model.pth" : String) = snapFile e) :=
      fun hh => snapFile_ne_of_head e _ (by decide) hh.symm
    have h2 : ¬ (("model.pth" : String) = "model_best.pth.tar") := by
      decide
    have h3 : ¬ (("model.pth" : String) = ckptFile) := by decide
    by_cases hib : decide (b < acc) = true <;>
      by_cases hcond : (e % 10 == 0) = true <;>
        simp [hib, hcond, fsCopy, fsWrite, h1, h2, h3]
  · -- weights.pth untouched
    have h1 : ¬ (("weights.pth" : String) = snapFile e) :=
      fun hh => snapFile_ne_of_head e _ (by decide) hh.symm
    have h2 : ¬ (("weights.pth" : String) = "model_best.pth.tar") := by
      decide
    have h3 : ¬ (("weights.pth" : String) = ckptFile) := by decide
    by_cases hib : decide (b < acc) = true <;>
      by_cases hcond : (e % 10 == 0) = true <;>
        simp [hib, hcond, fsCopy, fsWrite, h1, h2, h3]

/-- Claim C10 witness: a best record call (accuracy 50 over best 0)
from an empty directory emits both warnings and produces neither
model.pth nor weights.pth. -/
theorem claim_C10_witness :
    List.lookup "model" mainGlobals = none ∧
    ∃ ib saved b' fs' evs,
      record mainGlobals allOk 0 0 50 7 9 "MobileNetV2"
        (fun _ => none) = .ok (ib, saved, b', fs', evs) ∧
      (ib = true →
        Ev.warn "WARNING: Unable to save model.pth" ∈ evs ∧
        Ev.warn "WARNING: Unable to save weights.pth" ∈ evs) ∧
      Ev.write "model.pth" ∉ evs ∧
      Ev.write "weights.pth" ∉ evs ∧
      fs' "model.pth" = none ∧
      fs' "weights.pth" = none := by
  refine ⟨claim_C10.1, ?_⟩
  obtain ⟨ib, saved, b', fs', evs, h1, h2, h3, h4, h5, h6⟩ :=
    claim_C10.2 allOk 0 0 50 7 9 "MobileNetV2" (fun _ => none)
      rfl rfl rfl
  exact ⟨ib, saved, b', fs', evs, h1, h2, h3, h4, h5, h6⟩

/-- Claim C7: a failing export write (unbound `model` or an I/O
failure) on a best test pass is caught: the warning is emitted, the
pass still returns its metrics and still writes the correct
checkpoint.pth.tar; and the other three file operations are the only
fatal ones — each propagates as an error when it fails. -/
theorem claim_C7 (env : List (String × Nat)) (fl : WriteFlags) (b : Rat)
    (e : Int) (bs : List Batch) (sd opt : Nat) (arch : String) (fs : FS)
    (hck : fl.ckptOk = true) (hbc : fl.bestCopyOk = true)
    (hsc : fl.snapCopyOk = true) (hne : bs ≠ []) (htot : totalSum bs ≠ 0)
    (hbest : b < 100 * (correctSum bs : Rat) / totalSum bs) :
    (∃ m b' fs' evs,
      test env fl b e bs sd opt arch fs = .ok (m, true, b', fs', evs) ∧
      m = { avg_loss := lossSum bs / bs.length,
            acc := 100 * (correctSum bs : Rat) / totalSum bs,
            avg_time := timeSum bs / bs.length } ∧
      fs' ckptFile = some (.ckpt
        { epoch := e + 1, arch := arch, state_dict := sd,
          best_acc1 :=
            max (100 * (correctSum bs : Rat) / totalSum bs) b,
          optimizer := opt }) ∧
      ((List.lookup "model" env = none ∨ fl.modelOk = false) →
        Ev.warn "WARNING: Unable to save model.pth" ∈ evs) ∧
      ((List.lookup "model" env = none ∨ fl.weightsOk = false) →
        Ev.warn "WARNING: Unable to save weights.pth" ∈ evs)) ∧
    (∀ fl' : WriteFlags, fl'.ckptOk = false →
      ∀ (b2 : Rat) (e2 : Int) (acc2 : Rat) (sd2 opt2 : Nat) (fs2 : FS),
        record env fl' b2 e2 acc2 sd2 opt2 arch fs2 =
          .error "IOError: checkpoint.pth.tar") ∧
    (∀ fl' : WriteFlags, fl'.ckptOk = true → fl'.bestCopyOk = false →
      ∀ (b2 : Rat) (e2 : Int) (acc2 : Rat) (sd2 opt2 : Nat) (fs2 : FS),
        b2 < acc2 →
        record env fl' b2 e2 acc2 sd2 opt2 arch fs2 =
          .error "IOError: model_best.pth.tar") ∧
    (∀ fl' : WriteFlags, fl'.ckptOk = true → fl'.bestCopyOk = true →
      fl'.snapCopyOk = false →
      ∀ (b2 : Rat) (e2 : Int) (acc2 : Rat) (sd2 opt2 : Nat) (fs2 : FS),
        e2 % 10 = 0 →
        record env fl' b2 e2 acc2 sd2 opt2 arch fs2 =
          .error "IOError: snapshot") := by
  refine ⟨?_, ?_, ?_, ?_⟩
  · obtain ⟨fs', evs, hrec, hckpt, _, _⟩ :=
      record_fs_facts env fl b e
        (100 * (correctSum bs : Rat) / totalSum bs) sd opt arch fs
        hck hbc hsc
    have hib : decide
        (b < 100 * (correctSum bs : Rat) / totalSum bs) = true :=
      decide_eq_true hbest
    have hfull := record_full env fl b e
      (100 * (correctSum bs : Rat) / totalSum bs) sd opt arch fs
      hck hbc hsc
    rw [hrec] at hfull
    injection hfull with h2
    simp only [Prod.mk.injEq] at h2
    obtain ⟨_, _, _, _, hevs⟩ := h2
    have htest : test env fl b e bs sd opt arch fs =
        .ok ({ avg_loss := lossSum bs / bs.length,
               acc := 100 * (correctSum bs : Rat) / totalSum bs,
               avg_time := timeSum bs / bs.length },
          decide (b < 100 * (correctSum bs : Rat) / totalSum bs),
          max (100 * (correctSum bs : Rat) / totalSum bs) b, fs',
          evs) := by
      unfold test
      rw [finalizeMetrics_eq bs hne htot]
      dsimp only
      rw [hrec]
    rw [hib] at htest
    refine ⟨_, _, _, _, htest, rfl, hckpt, ?_, ?_⟩
    · intro hcond
      rw [hevs]
      refine List.mem_append.mpr (Or.inl ?_)
      rw [if_pos hib]
      refine List.mem_append.mpr (Or.inl ?_)
      rw [tryExport_fail env fl.modelOk "model.pth" FileData.modelObj
        fs hcond]
      exact List.mem_cons_self _ _
    · intro hcond
      rw [hevs]
      refine List.mem_append.mpr (Or.inl ?_)
      rw [if_pos hib]
      refine List.mem_append.mpr (Or.inr ?_)
      rw [tryExport_fail env fl.weightsOk "weights.pth"
        FileData.weights _ hcond]
      exact List.mem_cons_self _ _
  · intro fl' hko b2 e2 acc2 sd2 opt2 fs2
    unfold record save_checkpoint
    simp [hko]
  · intro fl' hok hbk b2 e2 acc2 sd2 opt2 fs2 hlt
    unfold record save_checkpoint
    simp [hok, hbk, hlt]
  · intro fl' hok hbk hsk b2 e2 acc2 sd2 opt2 fs2 hmod
    unfold record save_checkpoint
    simp [hok, hbk, hsk, hmod]

/-- Claim C7 witness: the spec scenario — simulate a failing
model.pth write (the flag is off, and `model` is unbound anyway) on a
best epoch of the spec's two-batch pass. -/
theorem claim_C7_witness :
    ∃ m b' fs' evs,
      test mainGlobals
        { modelOk := false, weightsOk := false, ckptOk := true,
          bestCopyOk := true, snapCopyOk := true }
        0 0
        [{ loss := 1, correct := 8, total := 10, btime := 1/10 },
         { loss := 2, correct := 9, total := 10, btime := 1/5 }]
        7 9 "MobileNetV2" (fun _ => none) =
        .ok (m, true, b', fs', evs) ∧
      m = { avg_loss := lossSum
              [{ loss := 1, correct := 8, total := 10, btime := 1/10 },
               { loss := 2, correct := 9, total := 10, btime := 1/5 }] /
              ([{ loss := 1, correct := 8, total := 10, btime := 1/10 },
                { loss := 2, correct := 9, total := 10,
                  btime := 1/5 }] : List Batch).length,
            acc := 100 * ((correctSum
              [{ loss := 1, correct := 8, total := 10, btime := 1/10 },
               { loss := 2, correct := 9, total := 10,
                 btime := 1/5 }] : Nat) : Rat) / (totalSum
              [{ loss := 1, correct := 8, total := 10, btime := 1/10 },
               { loss := 2, correct := 9, total := 10, btime := 1/5 }]),
            avg_time := timeSum
              [{ loss := 1, correct := 8, total := 10, btime := 1/10 },
               { loss := 2, correct := 9, total := 10, btime := 1/5 }] /
              ([{ loss := 1, correct := 8, total := 10, btime := 1/10 },
                { loss := 2, correct := 9, total := 10,
                  btime := 1/5 }] : List Batch).length } ∧
      fs' ckptFile = some (.ckpt
        { epoch := 0 + 1, arch := "MobileNetV2", state_dict := 7,
          best_acc1 := max (100 * ((correctSum
            [{ loss := 1, correct := 8, total := 10, btime := 1/10 },
             { loss := 2, correct := 9, total := 10,
               btime := 1/5 }] : Nat) : Rat) / (totalSum
            [{ loss := 1, correct := 8, total := 10, btime := 1/10 },
             { loss := 2, correct := 9, total := 10, btime := 1/5 }]))
            0,
          optimizer := 9 }) ∧
      Ev.warn "WARNING: Unable to save model.pth" ∈ evs ∧
      Ev.warn "WARNING: Unable to save weights.pth" ∈ evs := by
  obtain ⟨m, b', fs', evs, htest, hm, hckpt, hw1, hw2⟩ :=
    (claim_C7 mainGlobals
      { modelOk := false, weightsOk := false, ckptOk := true,
        bestCopyOk := true, snapCopyOk := true }
      0 0
      [{ loss := 1, correct := 8, total := 10, btime := 1/10 },
       { loss := 2, correct := 9, total := 10, btime := 1/5 }]
      7 9 "MobileNetV2" (fun _ => none) rfl rfl rfl
      (List.cons_ne_nil _ _) (by decide)
      (by norm_num [correctSum, totalSum, List.map_cons, List.map_nil,
        List.sum_cons, List.sum_nil])).1
  exact ⟨m, b', fs', evs, htest, hm, hckpt,
    hw1 (Or.inl lookup_model_none), hw2 (Or.inl lookup_model_none)⟩

/-- A record call never touches the log file, and always emits the
checkpoint write event. -/
theorem record_step_facts (env : List (String × Nat)) (fl : WriteFlags)
    (b : Rat) (e : Int) (acc : Rat) (sd opt : Nat) (arch : String)
    (fs : FS) (hck : fl.ckptOk = true) (hbc : fl.bestCopyOk = true)
    (hsc : fl.snapCopyOk = true) :
    ∃ ib saved b' fs' evs,
      record env fl b e acc sd opt arch fs =
        .ok (ib, saved, b', fs', evs) ∧
      fs' "train_log.csv" = fs "train_log.csv" ∧
      Ev.write ckptFile ∈ evs := by
  have h := record_full env fl b e acc sd opt arch fs hck hbc hsc
  refine ⟨_, _, _, _, _, h, ?_, ?_⟩
  · have e1 : (tryExport env fl.modelOk "model.pth" FileData.modelObj
        fs).1 "train_log.csv" = fs "train_log.csv" :=
      tryExport_fs _ _ _ _ _ _ (by decide)
    have e2 : ∀ g : FS, (tryExport env fl.weightsOk "weights.pth"
        FileData.weights g).1 "train_log.csv" = g "train_log.csv" :=
      fun g => tryExport_fs _ _ _ _ _ _ (by decide)
    have h5 : ¬ (("train_log.csv" : String) = snapFile e) :=
      fun hh => snapFile_ne_of_head e _ (by decide) hh.symm
    have h3 : ¬ (("train_log.csv" : String) = ckptFile) := by decide
    have h4 : ¬ (("train_log.csv" : String) = "model_best.pth.tar") := by
      decide
    by_cases hib : decide (b < acc) = true <;>
      by_cases hcond : (e % 10 == 0) = true <;>
        simp [hib, hcond, fsCopy, fsWrite, h3, h4, h5, e1, e2]
  · by_cases hib : decide (b < acc) = true <;>
      by_cases hcond : (e % 10 == 0) = true <;>
        simp [hib, hcond]

/-- One main-loop iteration under succeeding writes and non-empty
loaders: train, test (whose events include the checkpoint write), and
the append of exactly one data row to the log. -/
theorem epochIter_ok (cfg : RunCfg) (st : LoopSt) (e : Nat)
    (rows : List LogEntry)
    (hck : cfg.fl.ckptOk = true) (hbc : cfg.fl.bestCopyOk = true)
    (hsc : cfg.fl.snapCopyOk = true)
    (htrne : cfg.trainB e ≠ []) (htrtot : totalSum (cfg.trainB e) ≠ 0)
    (htene : cfg.testB e ≠ []) (htetot : totalSum (cfg.testB e) ≠ 0)
    (hlog : st.fs "train_log.csv" = some (.log rows)) :
    ∃ b' fs'' evs trLog teLog,
      epochIter cfg st e = .ok
        { best_acc := b', fs := fs'',
          trace := st.trace ++ [.tr e, .te e evs,
            .lg e (.row e trLog teLog (cfg.wallT e))] } ∧
      Ev.write ckptFile ∈ evs ∧
      fs'' "train_log.csv" =
        some (.log (rows ++ [.row e trLog teLog (cfg.wallT e)])) := by
  have htr := finalizeMetrics_eq (cfg.trainB e) htrne htrtot
  have hte := finalizeMetrics_eq (cfg.testB e) htene htetot
  obtain ⟨ib, saved, b', fs', evs, hrec, hpres, hmem⟩ :=
    record_step_facts cfg.env cfg.fl st.best_acc (e : Int)
      (100 * (correctSum (cfg.testB e) : Rat) / totalSum (cfg.testB e))
      (cfg.netSd e) (cfg.optSt e) cfg.arch st.fs hck hbc hsc
  have htest : test cfg.env cfg.fl st.best_acc (e : Int) (cfg.testB e)
      (cfg.netSd e) (cfg.optSt e) cfg.arch st.fs =
      .ok ({ avg_loss := lossSum (cfg.testB e) / (cfg.testB e).length,
             acc := 100 * (correctSum (cfg.testB e) : Rat) /
               totalSum (cfg.testB e),
             avg_time := timeSum (cfg.testB e) / (cfg.testB e).length },
        ib, b', fs', evs) := by
    unfold test
    rw [hte]
    dsimp only
    rw [hrec]
  refine ⟨b',
    fsWrite fs' "train_log.csv" (.log (rows ++
      [LogEntry.row e
        { avg_loss := lossSum (cfg.trainB e) / (cfg.trainB e).length,
          acc := 100 * (correctSum (cfg.trainB e) : Rat) /
            totalSum (cfg.trainB e),
          avg_time := timeSum (cfg.trainB e) / (cfg.trainB e).length }
        { avg_loss := lossSum (cfg.testB e) / (cfg.testB e).length,
          acc := 100 * (correctSum (cfg.testB e) : Rat) /
            totalSum (cfg.testB e),
          avg_time := timeSum (cfg.testB e) / (cfg.testB e).length }
        (cfg.wallT e)])),
    evs,
    { avg_loss := lossSum (cfg.trainB e) / (cfg.trainB e).length,
      acc := 100 * (correctSum (cfg.trainB e) : Rat) /
        totalSum (cfg.trainB e),
      avg_time := timeSum (cfg.trainB e) / (cfg.trainB e).length },
    { avg_loss := lossSum (cfg.testB e) / (cfg.testB e).length,
      acc := 100 * (correctSum (cfg.testB e) : Rat) /
        totalSum (cfg.testB e),
      avg_time := timeSum (cfg.testB e) / (cfg.testB e).length },
    ?_, hmem, ?_⟩
  · unfold epochIter trainMetrics
    rw [htr]
    dsimp only
    rw [htest]
    dsimp only
    unfold logAppend
    rw [hpres, hlog]
  · simp [fsWrite]

/-- Splitting a loop run: n + k epochs from s is n epochs from s, then
k epochs from s + n. -/
theorem loopFrom_add (cfg : RunCfg) :
    ∀ (n k s : Nat) (st : LoopSt),
      loopFrom cfg s (n + k) st =
        match loopFrom cfg s n st with
        | .error e => .error e
        | .ok st' => loopFrom cfg (s + n) k st' := by
  intro n
  induction n with
  | zero =>
    intro k s st
    simp only [Nat.zero_add, Nat.add_zero, loopFrom]
  | succ n ih =>
    intro k s st
    rw [show n + 1 + k = (n + k) + 1 from by omega]
    simp only [loopFrom]
    cases epochIter cfg st s with
    | error e => rfl
    | ok st' =>
      dsimp only
      rw [ih k (s + 1) st']
      rw [show s + 1 + n = s + (n + 1) from by omega]

/-- Master account of a loop run: it succeeds, its top-level trace is
exactly (train, test, log-append) per epoch over [s, s+n) in order
(with the checkpoint write inside every test step), and the log grows
by exactly one data row per epoch, in epoch order, never rewriting
earlier rows. -/
theorem loopFrom_ok (cfg : RunCfg)
    (hck : cfg.fl.ckptOk = true) (hbc : cfg.fl.bestCopyOk = true)
    (hsc : cfg.fl.snapCopyOk = true)
    (hall : ∀ k, cfg.trainB k ≠ [] ∧ totalSum (cfg.trainB k) ≠ 0 ∧
      cfg.testB k ≠ [] ∧ totalSum (cfg.testB k) ≠ 0) :
    ∀ (n s : Nat) (st : LoopSt) (rows : List LogEntry),
      st.fs "train_log.csv" = some (.log rows) →
      ∃ stF, loopFrom cfg s n st = .ok stF ∧
        (∃ tr', stF.trace = st.trace ++ tr' ∧
          tr'.map TraceEv.shape =
            (List.range' s n).bind
              (fun k => [((0 : Nat), k), (1, k), (2, k)]) ∧
          (∀ t ∈ tr', ∀ k evs, t = TraceEv.te k evs →
            Ev.write ckptFile ∈ evs)) ∧
        (∃ rows', stF.fs "train_log.csv" = some (.log (rows ++ rows')) ∧
          rows'.length = n ∧
          ∀ i (hi : i < rows'.length), ∃ t1 t2,
            rows'.get ⟨i, hi⟩ =
              .row (s + i) t1 t2 (cfg.wallT (s + i))) := by
  intro n
  induction n with
  | zero =>
    intro s st rows hlog
    exact ⟨st, rfl,
      ⟨[], by simp, by simp, by simp⟩,
      ⟨[], by simpa using hlog, rfl, fun i hi => absurd hi (by simp)⟩⟩
  | succ n ih =>
    intro s st rows hlog
    obtain ⟨b', fs'', evs, trLog, teLog, hstep, hmem, hlog'⟩ :=
      epochIter_ok cfg st s rows hck hbc hsc (hall s).1 (hall s).2.1
        (hall s).2.2.1 (hall s).2.2.2 hlog
    obtain ⟨stF, hrun, ⟨tr', htr, hshape, hte⟩, ⟨rows', hlogF, hlen,
        hidx⟩⟩ :=
      ih (s + 1)
        { best_acc := b', fs := fs'',
          trace := st.trace ++ [.tr s, .te s evs,
            .lg s (.row s trLog teLog (cfg.wallT s))] }
        (rows ++ [.row s trLog teLog (cfg.wallT s)]) hlog'
    refine ⟨stF, ?_, ?_, ?_⟩
    · simp only [loopFrom]
      rw [hstep]
      dsimp only
      exact hrun
    · refine ⟨[.tr s, .te s evs,
        .lg s (.row s trLog teLog (cfg.wallT s))] ++ tr', ?_, ?_, ?_⟩
      · rw [htr]
        simp
      · rw [List.range'_succ]
        simp only [List.map_append, hshape, List.cons_bind]
        rfl
      · intro t ht k evs' hteq
        rcases List.mem_append.mp ht with h1 | h2
        · subst hteq
          have h1' : TraceEv.te k evs' = TraceEv.tr s ∨
              TraceEv.te k evs' = TraceEv.te s evs ∨
              TraceEv.te k evs' = TraceEv.lg s
                (.row s trLog teLog (cfg.wallT s)) := by
            simpa using h1
          rcases h1' with h | h | h
          · exact absurd h (by simp)
          · injection h with _ h'
            rw [h']
            exact hmem
          · exact absurd h (by simp)
        · exact hte t h2 k evs' hteq
    · refine ⟨[LogEntry.row s trLog teLog (cfg.wallT s)] ++ rows',
        ?_, by simpa using hlen, ?_⟩
      · rw [hlogF]
        simp
      · intro i hi
        cases i with
        | zero => exact ⟨trLog, teLog, by simp⟩
        | succ j =>
          have hj : j < rows'.length := by simpa using hi
          obtain ⟨t1, t2, hrow⟩ := hidx j hj
          have hadd : s + 1 + j = s + (j + 1) := by omega
          refine ⟨t1, t2, ?_⟩
          have hg : ([LogEntry.row s trLog teLog (cfg.wallT s)] ++
              rows').get ⟨j + 1, hi⟩ = rows'.get ⟨j, hj⟩ := by
            simp
          rw [hg, hrow, hadd]

/-- Projecting the log-append steps out of a per-epoch trace shape
gives back exactly the epoch range. -/
theorem triple_filter (s n : Nat) :
    (((List.range' s n).bind
      (fun k => [((0 : Nat), k), (1, k), (2, k)])).filter
      (fun p => p.1 == 2)).map Prod.snd = List.range' s n := by
  induction n generalizing s with
  | zero => rfl
  | succ n ih =>
    rw [List.range'_succ]
    rw [show (s :: List.range' (s + 1) n).bind
        (fun k => [((0 : Nat), k), (1, k), (2, k)]) =
        [((0 : Nat), s), (1, s), (2, s)] ++
        (List.range' (s + 1) n).bind
          (fun k => [((0 : Nat), k), (1, k), (2, k)]) from rfl]
    rw [List.filter_append, List.map_append, ih]
    rfl

/-- Claim C6: the run loop iterates over exactly
[start_epoch, start_epoch + 200); each iteration is, in order, the
train pass, the test pass (whose events include the checkpoint write
of CheckpointManager.record), and exactly one log-row append; there is
no early termination, so a run is exactly 200 epochs. -/
theorem claim_C6 (cfg : RunCfg)
    (hck : cfg.fl.ckptOk = true) (hbc : cfg.fl.bestCopyOk = true)
    (hsc : cfg.fl.snapCopyOk = true)
    (hall : ∀ k, cfg.trainB k ≠ [] ∧ totalSum (cfg.trainB k) ≠ 0 ∧
      cfg.testB k ≠ [] ∧ totalSum (cfg.testB k) ≠ 0)
    (s : Nat) (best0 : Rat) (fs0 : FS) :
    ∃ stF, mainLoop cfg s best0 fs0 = .ok stF ∧
      stF.trace.map TraceEv.shape =
        (List.range' s 200).bind
          (fun k => [((0 : Nat), k), (1, k), (2, k)]) ∧
      (∀ t ∈ stF.trace, ∀ k evs, t = TraceEv.te k evs →
        Ev.write ckptFile ∈ evs) ∧
      ((stF.trace.map TraceEv.shape).filter
        (fun p => p.1 == 2)).map Prod.snd = List.range' s 200 ∧
      (List.range' s 200).length = 200 := by
  obtain ⟨stF, hrun, ⟨tr', htr, hshape, hte⟩, _⟩ :=
    loopFrom_ok cfg hck hbc hsc hall 200 s ⟨best0, mainInit fs0, []⟩
      [LogEntry.header] rfl
  have htr' : stF.trace = tr' := by simpa using htr
  refine ⟨stF, hrun, ?_, ?_, ?_, by simp⟩
  · rw [htr']
    exact hshape
  · intro t ht
    rw [htr'] at ht
    exact hte t ht
  · rw [htr', hshape, triple_filter]

/-- Claim C8: at run start the log is truncated (any prior content is
discarded, even on resume) and headed exactly once; each epoch appends
exactly one data row (one per epoch index, in order, no header among
them), and the log written after any prefix of the run is a prefix of
every later log state, so no written row is ever mutated or removed. -/
theorem claim_C8 (cfg : RunCfg)
    (hck : cfg.fl.ckptOk = true) (hbc : cfg.fl.bestCopyOk = true)
    (hsc : cfg.fl.snapCopyOk = true)
    (hall : ∀ k, cfg.trainB k ≠ [] ∧ totalSum (cfg.trainB k) ≠ 0 ∧
      cfg.testB k ≠ [] ∧ totalSum (cfg.testB k) ≠ 0)
    (s : Nat) (best0 : Rat) :
    (∀ fs0 junk, mainLoop cfg s best0
        (fsWrite fs0 "train_log.csv" junk) = mainLoop cfg s best0 fs0) ∧
    ∀ fs0 : FS, ∃ stF, mainLoop cfg s best0 fs0 = .ok stF ∧
      (∃ rows', stF.fs "train_log.csv" =
          some (.log (LogEntry.header :: rows')) ∧
        rows'.length = 200 ∧
        (∀ r ∈ rows', r ≠ LogEntry.header) ∧
        (∀ i (hi : i < rows'.length), ∃ t1 t2,
          rows'.get ⟨i, hi⟩ =
            .row (s + i) t1 t2 (cfg.wallT (s + i)))) ∧
      (∀ n, n ≤ 200 → ∃ stN rowsN ext,
        loopFrom cfg s n ⟨best0, mainInit fs0, []⟩ = .ok stN ∧
        stN.fs "train_log.csv" = some (.log rowsN) ∧
        stF.fs "train_log.csv" = some (.log (rowsN ++ ext))) := by
  constructor
  · intro fs0 junk
    unfold mainLoop
    have : mainInit (fsWrite fs0 "train_log.csv" junk) = mainInit fs0 := by
      funext m
      by_cases h : m = "train_log.csv" <;> simp [mainInit, fsWrite, h]
    rw [this]
  · intro fs0
    obtain ⟨stF, hrun, _, ⟨rows', hlogF, hlen, hidx⟩⟩ :=
      loopFrom_ok cfg hck hbc hsc hall 200 s ⟨best0, mainInit fs0, []⟩
        [LogEntry.header] rfl
    refine ⟨stF, hrun, ⟨rows', by simpa using hlogF, hlen, ?_, hidx⟩, ?_⟩
    · intro r hr
      obtain ⟨i, hget⟩ := List.mem_iff_get.mp hr
      obtain ⟨t1, t2, hrow⟩ := hidx i i.isLt
      rw [← hget, hrow]
      simp
    · intro n hn
      obtain ⟨stN, hrunN, _, ⟨rowsN', hlogN, _, _⟩⟩ :=
        loopFrom_ok cfg hck hbc hsc hall n s ⟨best0, mainInit fs0, []⟩
          [LogEntry.header] rfl
      obtain ⟨stF2, hrun2, _, ⟨ext, hlogF2, _, _⟩⟩ :=
        loopFrom_ok cfg hck hbc hsc hall (200 - n) (s + n) stN
          ([LogEntry.header] ++ rowsN') hlogN
      have hcomp := loopFrom_add cfg n (200 - n) s
        ⟨best0, mainInit fs0, []⟩
      rw [hrunN] at hcomp
      dsimp only at hcomp
      rw [hrun2] at hcomp
      rw [show n + (200 - n) = 200 from by omega] at hcomp
      have heq : stF = stF2 := by
        have h1 : Except.ok (ε := String) stF = Except.ok stF2 := by
          rw [← hrun, ← hcomp]
        injection h1
      refine ⟨stN, [LogEntry.header] ++ rowsN', ext, hrunN, hlogN, ?_⟩
      rw [heq]
      exact hlogF2

/-- A small concrete configuration: the program's globals, all writes
succeeding, one non-empty batch per epoch. -/
def demoCfg : RunCfg where
  env := mainGlobals
  fl := allOk
  arch := "MobileNetV2"
  trainB := fun _ => [{ loss := 1, correct := 8, total := 10, btime := 1/10 }]
  testB := fun _ => [{ loss := 1, correct := 9, total := 10, btime := 1/10 }]
  netSd := fun n => n
  optSt := fun n => n
  wallT := fun n => (n : Rat)

/-- The demo configuration has non-empty batches with samples at every
epoch, and all its writes succeed. -/
theorem demoCfg_ok : ∀ k, demoCfg.trainB k ≠ [] ∧
    totalSum (demoCfg.trainB k) ≠ 0 ∧ demoCfg.testB k ≠ [] ∧
    totalSum (demoCfg.testB k) ≠ 0 := fun _ =>
  ⟨List.cons_ne_nil _ _,
   (by decide :
     totalSum [{ loss := 1, correct := 8, total := 10, btime := 1/10 }] ≠ 0),
   List.cons_ne_nil _ _,
   (by decide :
     totalSum [{ loss := 1, correct := 9, total := 10, btime := 1/10 }] ≠ 0)⟩

/-- Claim C6 witness: a concrete 200-epoch run from epoch 0. -/
theorem claim_C6_witness :
    ∃ stF, mainLoop demoCfg 0 0 (fun _ => none) = .ok stF ∧
      stF.trace.map TraceEv.shape =
        (List.range' 0 200).bind
          (fun k => [((0 : Nat), k), (1, k), (2, k)]) ∧
      (∀ t ∈ stF.trace, ∀ k evs, t = TraceEv.te k evs →
        Ev.write ckptFile ∈ evs) ∧
      ((stF.trace.map TraceEv.shape).filter
        (fun p => p.1 == 2)).map Prod.snd = List.range' 0 200 ∧
      (List.range' 0 200).length = 200 :=
  claim_C6 demoCfg (by decide) (by decide) (by decide) demoCfg_ok
    0 0 (fun _ => none)

/-- Claim C8 witness: the same concrete run, from a directory already
holding stale log content. -/
theorem claim_C8_witness :
    (∀ fs0 junk, mainLoop demoCfg 0 0
        (fsWrite fs0 "train_log.csv" junk) = mainLoop demoCfg 0 0 fs0) ∧
    ∀ fs0 : FS, ∃ stF, mainLoop demoCfg 0 0 fs0 = .ok stF ∧
      (∃ rows', stF.fs "train_log.csv" =
          some (.log (LogEntry.header :: rows')) ∧
        rows'.length = 200 ∧
        (∀ r ∈ rows', r ≠ LogEntry.header) ∧
        (∀ i (hi : i < rows'.length), ∃ t1 t2,
          rows'.get ⟨i, hi⟩ =
            .row (0 + i) t1 t2 (demoCfg.wallT (0 + i)))) ∧
      (∀ n, n ≤ 200 → ∃ stN rowsN ext,
        loopFrom demoCfg 0 n ⟨0, mainInit fs0, []⟩ = .ok stN ∧
        stN.fs "train_log.csv" = some (.log rowsN) ∧
        stF.fs "train_log.csv" = some (.log (rowsN ++ ext))) :=
  claim_C8 demoCfg (by decide) (by decide) (by decide) demoCfg_ok 0 0

end PCifar
